import Mathlib

/-
Verification of the embedding-index retrieval engine of the yojana-mitra
repository (rag.py, utils.py, utils/faiss_handler.py, utils/csv_processor.py,
main.py).

Modelling conventions of the shallow embedding:
* Embedding vectors are abstract: the element type of the vector store is a
  type parameter, and the float32 inner-product computed by FAISS between the
  (already normalized) query and a stored vector is abstracted into a
  parameter function mapping each stored vector to an integer-valued score.
  All structural behaviour of FAISS IndexFlat search is modelled exactly:
  exact ranking by descending score with ties broken by ascending ordinal
  position, exactly k returned slots, and slots past the number of stored
  vectors padded with position -1 and a sentinel score (modelled as none).
  The faiss.normalize_L2 in-place normalization is likewise a parameter
  function applied to each row before storage.
* Python lists are Lean lists; Python list indexing (including negative
  indices) is modelled by pyGet; a failed index access (IndexError) and a
  raised ValueError are the two error outcomes of fallible operations.
* A pandas cell is a PCell: the column may be absent from the frame, the
  value may be NaN, or it may be a string value; str(nan) is the string
  "nan" as in Python, and pd.notna holds exactly for value cells.
* The on-disk bundle is a record of Option-valued artifacts (a file is
  present or absent); pickling and faiss index serialization are modelled as
  exact storage.  An interrupted save is modelled by the number of the four
  sequential writes that completed before the interruption.
-/

/-! ## Python primitives -/

/-- Python list indexing xs[i]: a negative index counts from the end,
an index out of range raises IndexError (modelled as none). -/
def pyGet {β : Type} (xs : List β) (i : Int) : Option β :=
  let j : Int := if i < 0 then (xs.length : Int) + i else i
  if 0 ≤ j then xs.get? j.toNat else none

/-- A pandas cell as seen by the Python code: the column may be missing from
the row, the stored value may be NaN, or it is a (string) value. -/
inductive PCell where
  | absent : PCell
  | nan : PCell
  | val (s : String) : PCell
deriving DecidableEq, Repr

/-- The Python test (key in row and pd.notna(row[key])). -/
def PCell.presentNotna : PCell → Bool
  | .val _ => true
  | _ => false

/-- str(row.get(key, default)): a missing column gives the default, a NaN
cell prints as "nan", a value cell prints as itself. -/
def PCell.getStr (c : PCell) (default : String) : String :=
  match c with
  | .absent => default
  | .nan => "nan"
  | .val s => s

/-- str(row[key]) for a column that exists in the frame (NaN prints "nan");
an absent cell cannot occur on this path because column presence is checked
before the row loop, and is mapped to "nan" for totality. -/
def pyStrCell : PCell → String
  | .absent => "nan"
  | .nan => "nan"
  | .val s => s

/-- Python str.strip(): remove leading and trailing whitespace. -/
def pyStrip (s : String) : String :=
  String.mk (((s.data.dropWhile Char.isWhitespace).reverse.dropWhile
    Char.isWhitespace).reverse)

/-- Python str.replace(quote, empty string): removes every double-quote
character. -/
def removeQuotes (s : String) : String :=
  String.mk (s.data.filter (fun c => c ≠ '"'))

/-- s.strip().replace(quote, "") as used for the document parts in
utils.py create_documents. -/
def cleanSR (s : String) : String := removeQuotes (pyStrip s)

/-- s.replace(quote, "").strip() as used for metadata values in utils.py and
for all fields in utils/csv_processor.py. -/
def cleanRS (s : String) : String := pyStrip (removeQuotes s)

/-- Split a character list at every character satisfying p, keeping empty
pieces (one split per delimiter occurrence). -/
def splitChars (p : Char → Bool) (l : List Char) : List (List Char) :=
  l.foldr
    (fun c acc =>
      match acc with
      | [] => if p c then [[], []] else [[c]]
      | piece :: rest => if p c then [] :: piece :: rest else (c :: piece) :: rest)
    [[]]

/-- Python str.split() with no argument: split on whitespace runs, no empty
pieces. -/
def pySplitWs (s : String) : List String :=
  ((splitChars Char.isWhitespace s.data).map String.mk).filter (fun p => p ≠ "")

/-! ## utils/csv_processor.py : CSVProcessor -/

namespace CSVProcessor

/-- Rough estimation of token count (4 characters per token average):
len(text) // 4. -/
def estimate_tokens (s : String) : Nat := s.length / 4

/-- Sentence delimiter characters of the regular expression [.!?]+. -/
def isSentenceDelim (c : Char) : Bool := c = '.' || c = '!' || c = '?'

/-- re.split applied with the pattern [.!?]+ : each maximal run of
delimiters separates two pieces. -/
def splitSentences (s : String) : List String :=
  let step : List String × String × Bool → Char → List String × String × Bool :=
    fun st c =>
      let (done, cur, lastDelim) := st
      if isSentenceDelim c then
        if lastDelim then (done, cur, true)
        else (done ++ [cur], "", true)
      else (done, cur.push c, false)
  let fin := s.data.foldl step ([], "", false)
  fin.1 ++ [fin.2.1]

/-- One step of the inner word loop of chunk_text: state is the chunk list
produced so far together with the running word_chunk. -/
def wordStep (maxTokens : Nat) (acc : List String × String) (word : String) :
    List String × String :=
  let (chunks, wc) := acc
  if estimate_tokens (wc ++ " " ++ word) > maxTokens then
    if wc ≠ "" then (chunks ++ [pyStrip wc], word)
    else (chunks ++ [String.mk (word.data.take (maxTokens * 4))], wc)
  else (chunks, if wc ≠ "" then wc ++ " " ++ word else word)

/-- One step of the sentence loop of chunk_text: state is the chunk list
produced so far together with the running current_chunk. -/
def sentenceStep (maxTokens : Nat) (acc : List String × String) (sentence : String) :
    List String × String :=
  let s := pyStrip sentence
  if s = "" then acc
  else
    let (chunks, cc) := acc
    if estimate_tokens (cc ++ " " ++ s) > maxTokens then
      if cc ≠ "" then (chunks ++ [pyStrip cc], s)
      else (pySplitWs s).foldl (wordStep maxTokens) (chunks, "")
    else (chunks, if cc ≠ "" then cc ++ " " ++ s else s)

/-- Split text into chunks based on token limit (CSVProcessor.chunk_text). -/
def chunk_text (maxTokens : Nat) (text : String) : List String :=
  if estimate_tokens text ≤ maxTokens then [text]
  else
    let fin := (splitSentences text).foldl (sentenceStep maxTokens) ([], "")
    if fin.2 ≠ "" then fin.1 ++ [pyStrip fin.2] else fin.1

/-- A row of scheme-shaped CSV data as read by csv_processor (the columns
probed by _combine_scheme_columns). -/
structure CRow where
  scheme_name : PCell
  details : PCell
  benefits : PCell
  eligibility : PCell
  application : PCell
  documents : PCell
  schemeCategory : PCell
  level : PCell
  tags : PCell
deriving DecidableEq, Repr

/-- Helper: the contribution of one labelled cell to the combined parts. -/
def cellPart (label : String) (c : PCell) : List String :=
  match c with
  | .val s => [label ++ cleanRS s]
  | _ => []

/-- Combine multiple columns from scheme data for comprehensive search
(CSVProcessor._combine_scheme_columns). -/
def combine_scheme_columns (r : CRow) : String :=
  String.intercalate " | "
    (cellPart "Scheme: " r.scheme_name ++
     cellPart "Details: " r.details ++
     cellPart "Benefits: " r.benefits ++
     cellPart "Eligibility: " r.eligibility ++
     cellPart "Application Process: " r.application ++
     cellPart "Required Documents: " r.documents ++
     cellPart "Category: " r.schemeCategory ++
     cellPart "Level: " r.level ++
     cellPart "Tags: " r.tags)

/-- Source identifier of a scheme row at ordinal position idx. -/
def schemeSource (idx : Nat) (r : CRow) : String :=
  cleanRS (r.scheme_name.getStr ("row_" ++ toString idx)) ++ "_row_" ++ toString idx

/-- Source identifier of a generic row at ordinal position idx. -/
def genericSource (idx : Nat) : String := "row_" ++ toString idx

/-- The scheme-data branch of process_csv, looping over enumerated rows. -/
def processSchemeGo (maxTokens : Nat) : Nat → List CRow → List String × List String
  | _, [] => ([], [])
  | i, r :: rs =>
    let rest := processSchemeGo maxTokens (i + 1) rs
    let combined := combine_scheme_columns r
    if pyStrip combined = "" then rest
    else
      let chunks := chunk_text maxTokens combined
      (chunks ++ rest.1, List.replicate chunks.length (schemeSource i r) ++ rest.2)

/-- The generic branch of process_csv over the text column cells. -/
def processGenericGo (maxTokens : Nat) : Nat → List PCell → List String × List String
  | _, [] => ([], [])
  | i, c :: cs =>
    let rest := processGenericGo maxTokens (i + 1) cs
    let text := pyStrCell c
    if pyStrip text = "" then rest
    else
      let chunks := chunk_text maxTokens text
      (chunks ++ rest.1, List.replicate chunks.length (genericSource i) ++ rest.2)

/-- The parsed CSV data process_csv dispatches on: scheme-shaped frames
(columns scheme_name and details both present) versus generic frames with a
text column. -/
inductive CsvData where
  | scheme (rows : List CRow)
  | generic (rows : List PCell)

/-- Process CSV file and return chunked texts and their sources
(CSVProcessor.process_csv). -/
def process_csv (maxTokens : Nat) : CsvData → List String × List String
  | .scheme rows => processSchemeGo maxTokens 0 rows
  | .generic rows => processGenericGo maxTokens 0 rows

end CSVProcessor

/-! ## utils.py : SchemeDocumentProcessor -/

/-- A row of the scheme frame after the column renaming of load_csv (the
canonical column names probed by create_documents). -/
structure SRow where
  scheme_name : PCell
  details : PCell
  benefits : PCell
  eligibility : PCell
  application : PCell
  documents : PCell
  scheme_category : PCell
  level : PCell
  tags : PCell
  state : PCell
  official_url : PCell
deriving DecidableEq, Repr

/-- The metadata dictionary built for one kept row by create_documents.
Fields are optional because a metadata record read back from a pickle may
lack keys; create_documents itself always populates every field. -/
structure Metadata where
  scheme_name : Option String
  sector : Option String
  state : Option String
  eligibility : Option String
  benefits : Option String
  official_url : Option String
  level : Option String
  tags : Option String
  row_index : Nat
deriving DecidableEq, Repr

namespace SchemeDocumentProcessor

/-- Helper: the contribution of one labelled cell to doc_parts
(strip-then-unquote cleaning as in create_documents). -/
def docPart (label : String) (c : PCell) : List String :=
  match c with
  | .val s => [label ++ cleanSR s]
  | _ => []

/-- The document text of one row: present fields as labelled segments joined
by the fixed delimiter. -/
def rowDocumentText (r : SRow) : String :=
  String.intercalate " | "
    (docPart "Scheme: " r.scheme_name ++
     docPart "Description: " r.details ++
     docPart "Benefits: " r.benefits ++
     docPart "Eligibility: " r.eligibility ++
     docPart "Application Process: " r.application ++
     docPart "Required Documents: " r.documents ++
     docPart "Category: " r.scheme_category ++
     docPart "Level: " r.level ++
     docPart "Tags: " r.tags)

/-- The metadata record of one kept row (unquote-then-strip cleaning, with
the get-defaults of create_documents). -/
def rowMetadata (idx : Nat) (r : SRow) : Metadata :=
  { scheme_name := some (cleanRS (r.scheme_name.getStr "Unknown"))
    sector := some (cleanRS (r.scheme_category.getStr "Unknown"))
    state := some (cleanRS (r.state.getStr "All India"))
    eligibility := some (cleanRS (r.eligibility.getStr "Not specified"))
    benefits := some (cleanRS (r.benefits.getStr "Not specified"))
    official_url := some (cleanRS (r.official_url.getStr "Not available"))
    level := some (cleanRS (r.level.getStr "Unknown"))
    tags := some (cleanRS (r.tags.getStr ""))
    row_index := idx }

/-- The row loop of create_documents over enumerated rows: a row contributes
one document and one metadata record when its document text is non-empty
after stripping. -/
def createDocsGo : Nat → List SRow → List String × List Metadata
  | _, [] => ([], [])
  | i, r :: rs =>
    let rest := createDocsGo (i + 1) rs
    let document_text := rowDocumentText r
    if pyStrip document_text ≠ "" then
      (document_text :: rest.1, rowMetadata i r :: rest.2)
    else rest

/-- Create text documents and metadata from CSV data
(SchemeDocumentProcessor.create_documents). -/
def create_documents (rows : List SRow) : List String × List Metadata :=
  createDocsGo 0 rows

end SchemeDocumentProcessor

/-! ## FAISS index (faiss.IndexFlatIP) -/

/-- The state of a faiss.IndexFlatIP: its dimension and the vectors added so
far, in insertion order.  ntotal is the length of the vector list. -/
structure FaissIndex (α : Type) where
  dimension : Nat
  vectors : List α
deriving DecidableEq

/-- Stable ranking insertion for the exact top-k selection of IndexFlat. -/
def insertRanked {γ : Type} (le : γ → γ → Bool) (x : γ) : List γ → List γ
  | [] => [x]
  | y :: ys => if le x y then x :: y :: ys else y :: insertRanked le x ys

/-- Full ranking by the given priority test (insertion sort). -/
def sortRanked {γ : Type} (le : γ → γ → Bool) : List γ → List γ
  | [] => []
  | x :: xs => insertRanked le x (sortRanked le xs)

/-- index.search(query, k) of a faiss.IndexFlatIP: every stored vector is
scored against the query (scoreOf abstracts the float inner product with the
normalized query), the k best slots are returned ranked by descending score
with ties broken by ascending ordinal position, and when fewer than k
vectors are stored the remaining slots are padded with position -1 and a
sentinel score (none). -/
def FaissIndex.search {α : Type} (idx : FaissIndex α) (scoreOf : α → Int) (k : Nat) :
    List (Option Int × Int) :=
  let scored : List (Int × Int) := idx.vectors.enum.map (fun p => (scoreOf p.2, (p.1 : Int)))
  let ranked := sortRanked (fun a b => decide (b.1 < a.1 ∨ (a.1 = b.1 ∧ a.2 ≤ b.2))) scored
  ((ranked.take k).map (fun p => ((some p.1 : Option Int), p.2))) ++
    List.replicate (k - idx.vectors.length) ((none : Option Int), (-1 : Int))

/-- The two Python exception kinds relevant to the core: an explicitly
raised ValueError (a reported error) and an IndexError escaping from a list
access (a crash on this code path, no handler raises it on purpose). -/
inductive PyErr where
  | valueError (msg : String)
  | indexError
deriving DecidableEq, Repr

/-- The message a caught exception prints. -/
def pyErrMsg : PyErr → String
  | .valueError msg => msg
  | .indexError => "list index out of range"

/-- The error of a fallible outcome, if any. -/
def exceptErr {ε δ : Type} : Except ε δ → Option ε
  | .error e => some e
  | .ok _ => none

/-- int(s) on the decimal strings written by FAISSHandler.save_index. -/
def parseNatStr (s : String) : Option Nat :=
  if s.data ≠ [] ∧ s.data.all Char.isDigit then
    some (s.data.foldl (fun n c => n * 10 + (c.toNat - 48)) 0)
  else none

/-! ## utils/faiss_handler.py : FAISSHandler -/

/-- In-memory state of a FAISSHandler: the optional index and the parallel
text store (self.metadata, a list of chunk texts). -/
structure FAISSHandler (α : Type) where
  index : Option (FaissIndex α)
  metadata : List String
  dimension : Option Nat
deriving DecidableEq

/-- The three artifacts FAISSHandler persists under index_path:
index.faiss, metadata.pkl and dimension.txt. -/
structure FDisk (α : Type) where
  indexFile : Option (FaissIndex α)
  metadataFile : Option (List String)
  dimensionFile : Option String
deriving DecidableEq

namespace FAISSHandler

variable {α : Type}

/-- Create a new FAISS index with the specified dimension
(FAISSHandler.create_index). -/
def create_index (h : FAISSHandler α) (dimension : Nat) : FAISSHandler α :=
  { h with dimension := some dimension,
           index := some { dimension := dimension, vectors := [] },
           metadata := [] }

/-- Add embeddings and their corresponding texts to the index
(FAISSHandler.add_embeddings): the rows are normalized (normalize abstracts
faiss.normalize_L2) and appended to the index, and the texts are appended to
the text store; no length check relates the two arguments. -/
def add_embeddings (normalize : α → α) (h : FAISSHandler α)
    (embeddings : List α) (texts : List String) : Except PyErr (FAISSHandler α) :=
  match h.index with
  | none => .error (.valueError "Index not initialized. Call create_index first.")
  | some idx =>
    .ok { h with
          index := some { idx with vectors := idx.vectors ++ embeddings.map normalize },
          metadata := h.metadata ++ texts }

/-- The result loop of FAISSHandler.search: each returned slot whose
position passes the Python test (idx < len(metadata)) is joined with
metadata[idx]; a negative position passes the test and indexes from the end
of the list, raising IndexError when the list is empty. -/
def formatF (meta : List String) : List (Option Int × Int) → Except PyErr (List (Option Int × String))
  | [] => .ok []
  | (s, i) :: rest =>
    if i < (meta.length : Int) then
      match pyGet meta i with
      | some t => (formatF meta rest).map (fun rs => (s, t) :: rs)
      | none => .error .indexError
    else formatF meta rest

/-- Search for the top-k most similar embeddings (FAISSHandler.search): the
raw k is passed to the index unclamped. -/
def search (h : FAISSHandler α) (scoreOf : α → Int) (k : Nat) :
    Except PyErr (List (Option Int × String)) :=
  match h.index with
  | none => .error (.valueError "Index not initialized.")
  | some idx => formatF h.metadata (idx.search scoreOf k)

/-- Save the FAISS index and metadata to disk (FAISSHandler.save_index);
with no index it raises ValueError and writes nothing. -/
def save_index (h : FAISSHandler α) (disk : FDisk α) : FDisk α :=
  match h.index with
  | none => disk
  | some idx =>
    { indexFile := some idx, metadataFile := some h.metadata,
      dimensionFile := some (match h.dimension with | some d => toString d | none => "None") }

/-- Load the FAISS index and metadata from disk (FAISSHandler.load_index):
all three artifacts must exist, otherwise False with the state unchanged;
a dimension file that does not parse as an integer raises inside the try
block before any state is assigned, giving False with the state unchanged. -/
def load_index (h : FAISSHandler α) (disk : FDisk α) : Bool × FAISSHandler α :=
  match disk.indexFile, disk.metadataFile, disk.dimensionFile with
  | some idx, some meta, some dimStr =>
    match parseNatStr (pyStrip dimStr) with
    | none => (false, h)
    | some d => (true, { h with dimension := some d, index := some idx, metadata := meta })
  | _, _, _ => (false, h)

/-- Get the number of vectors in the index (FAISSHandler.get_index_size). -/
def get_index_size (h : FAISSHandler α) : Nat :=
  match h.index with
  | none => 0
  | some idx => idx.vectors.length

end FAISSHandler

/-! ## rag.py : RAGSystem -/

/-- The config record persisted as config.pkl: embedding_model and
dimension. -/
structure RagConfig where
  embedding_model : String
  dimension : Nat
deriving DecidableEq, Repr

/-- In-memory state of a RAGSystem: config, the optional index and the two
parallel stores (self.documents, self.metadata). -/
structure RAGSystem (α : Type) where
  embedding_model : String
  dimension : Nat
  index : Option (FaissIndex α)
  metadata : List Metadata
  documents : List String
deriving DecidableEq

/-- The four artifacts RAGSystem persists under index_path: index.faiss,
metadata.pkl, documents.pkl and config.pkl. -/
structure RAGDisk (α : Type) where
  indexFile : Option (FaissIndex α)
  metadataFile : Option (List Metadata)
  documentsFile : Option (List String)
  configFile : Option RagConfig
deriving DecidableEq

namespace RAGSystem

variable {α : Type}

/-- The batch loop of create_embeddings: texts are embedded in batches of
50 and the batch results concatenated (embed abstracts the per-text
embedding returned by the provider).  The fuel argument bounds the
iteration count exactly as range(0, len(texts), 50) does. -/
def create_embeddingsGo (embed : String → α) : Nat → List String → List α
  | 0, _ => []
  | _, [] => []
  | fuel + 1, t :: ts =>
    ((t :: ts).take 50).map embed ++ create_embeddingsGo embed fuel ((t :: ts).drop 50)

/-- Create embeddings for a list of texts (RAGSystem.create_embeddings). -/
def create_embeddings (embed : String → α) (texts : List String) : List α :=
  create_embeddingsGo embed texts.length texts

/-- Create FAISS index from embeddings (RAGSystem.create_faiss_index): the
rows are normalized (normalize abstracts faiss.normalize_L2) and added to a
fresh IndexFlatIP of the configured dimension. -/
def create_faiss_index (st : RAGSystem α) (normalize : α → α)
    (embeddings : List α) : FaissIndex α :=
  { dimension := st.dimension, vectors := embeddings.map normalize }

/-- Save the FAISS index and metadata to disk (RAGSystem.save_index): with
no index nothing is written and False is returned; otherwise all four
artifacts are (re)written. -/
def save_index (st : RAGSystem α) (disk : RAGDisk α) : Bool × RAGDisk α :=
  match st.index with
  | none => (false, disk)
  | some idx =>
    (true,
     { indexFile := some idx, metadataFile := some st.metadata,
       documentsFile := some st.documents,
       configFile := some { embedding_model := st.embedding_model,
                            dimension := st.dimension } })

/-- The four sequential writes of save_index with an interruption point:
steps counts how many of the in-place writes (index.faiss, metadata.pkl,
documents.pkl, config.pkl, in program order) completed before the save was
interrupted.  steps ≥ 4 is the uninterrupted save. -/
def save_index_steps (st : RAGSystem α) (disk : RAGDisk α) (steps : Nat) : RAGDisk α :=
  match st.index with
  | none => disk
  | some idx =>
    let d1 := if 1 ≤ steps then { disk with indexFile := some idx } else disk
    let d2 := if 2 ≤ steps then { d1 with metadataFile := some st.metadata } else d1
    let d3 := if 3 ≤ steps then { d2 with documentsFile := some st.documents } else d2
    if 4 ≤ steps then
      { d3 with configFile := some { embedding_model := st.embedding_model,
                                     dimension := st.dimension } }
    else d3

/-- Build the complete FAISS index from documents and metadata
(RAGSystem.build_index).  Empty input or a length mismatch raises inside
the try block and gives False with nothing changed; otherwise the index and
both stores are replaced and the bundle saved (the return value of
save_index is ignored, as in the source). -/
def build_index (embed : String → α) (normalize : α → α) (st : RAGSystem α)
    (disk : RAGDisk α) (documents : List String) (metadata : List Metadata) :
    Bool × RAGSystem α × RAGDisk α :=
  if documents = [] ∨ metadata = [] then (false, st, disk)
  else if documents.length ≠ metadata.length then (false, st, disk)
  else
    let embeddings := create_embeddings embed documents
    let st1 : RAGSystem α :=
      { st with
        index := some (create_faiss_index st normalize embeddings)
        documents := documents
        metadata := metadata }
    (true, st1, (save_index st1 disk).2)

/-- Load the FAISS index and metadata from disk (RAGSystem.load_index):
all four artifacts must exist, otherwise False is returned before any state
is touched; on success config, index and both stores are installed. -/
def load_index (st : RAGSystem α) (disk : RAGDisk α) : Bool × RAGSystem α :=
  match disk.indexFile, disk.metadataFile, disk.documentsFile, disk.configFile with
  | some idx, some meta, some docs, some cfg =>
    (true,
     { st with
       embedding_model := cfg.embedding_model
       dimension := cfg.dimension
       index := some idx
       metadata := meta
       documents := docs })
  | _, _, _, _ => (false, st)

/-- The statistics record of RAGSystem.get_index_stats. -/
inductive IndexStats where
  | noIndex
  | stats (total_documents : Nat) (embedding_model : String) (dimension : Nat)
      (index_type : String) (metadata_count : Nat) (documents_count : Nat)
deriving DecidableEq, Repr

/-- Get statistics about the current index (RAGSystem.get_index_stats). -/
def get_index_stats (st : RAGSystem α) : IndexStats :=
  match st.index with
  | none => .noIndex
  | some idx =>
    .stats idx.vectors.length st.embedding_model st.dimension
      "FAISS IndexFlatIP" st.metadata.length st.documents.length

/-- One formatted search result of RAGSystem.search (the dictionary built
per hit, with the get-defaults of the source). -/
structure SearchResult where
  scheme : String
  sector : String
  state : String
  eligibility : String
  benefits : String
  official_url : String
  level : String
  tags : String
  score : Option Int
  document : String
deriving DecidableEq, Repr

/-- The result dictionary of one hit. -/
def mkResult (m : Metadata) (doc : String) (score : Option Int) : SearchResult :=
  { scheme := m.scheme_name.getD "Unknown", sector := m.sector.getD "Unknown",
    state := m.state.getD "Unknown", eligibility := m.eligibility.getD "Not specified",
    benefits := m.benefits.getD "Not specified",
    official_url := m.official_url.getD "Not available",
    level := m.level.getD "Unknown", tags := m.tags.getD "",
    score := score, document := doc }

/-- The result loop of RAGSystem.search: a slot is kept when its position
passes the Python test (idx < len(metadata) and idx < len(documents)), and
the kept position is used to index both parallel stores. -/
def formatResults (meta : List Metadata) (docs : List String) :
    List (Option Int × Int) → Except PyErr (List SearchResult)
  | [] => .ok []
  | (s, i) :: rest =>
    if i < (meta.length : Int) ∧ i < (docs.length : Int) then
      match pyGet meta i, pyGet docs i with
      | some m, some d => (formatResults meta docs rest).map (fun rs => mkResult m d s :: rs)
      | _, _ => .error .indexError
    else formatResults meta docs rest

/-- Search for similar documents using the query (RAGSystem.search): with
no index the ValueError is caught and re-raised as a reported search
failure; otherwise the index is searched with k clamped to
min(k, ntotal) and each hit joined with the parallel stores. -/
def search (st : RAGSystem α) (scoreOf : α → Int) (k : Nat) :
    Except String (List SearchResult) :=
  match st.index with
  | none => .error "Search failed: Index not loaded. Please load or build an index first."
  | some idx =>
    match formatResults st.metadata st.documents
        (idx.search scoreOf (min k idx.vectors.length)) with
    | .ok rs => .ok rs
    | .error e => .error ("Search failed: " ++ pyErrMsg e)

end RAGSystem

/-! ## main.py : the ingest endpoint -/

/-- The response body of a successful ingest call. -/
structure IngestResponse where
  success : Bool
  documents_processed : Nat
  index_stats : RAGSystem.IndexStats
deriving DecidableEq, Repr

/-- The outcome of the ingest endpoint: an HTTPException with a status code
or a response. -/
inductive IngestOutcome where
  | httpError (code : Nat)
  | ok (resp : IngestResponse)
deriving DecidableEq, Repr

/-- The ingest endpoint of main.py (ingest_csv): a missing CSV is 404;
when an index already exists and force_rebuild is not set the call is a
no-op reporting the current vector count and stats; otherwise the CSV rows
are processed, an empty document list is 400, and the index is rebuilt
(500 when the build reports failure). -/
def ingest_csv {α : Type} (embed : String → α) (normalize : α → α) (csvExists : Bool)
    (rows : List SRow) (force_rebuild : Bool) (st : RAGSystem α) (disk : RAGDisk α) :
    IngestOutcome × RAGSystem α × RAGDisk α :=
  if csvExists = false then (.httpError 404, st, disk)
  else
    match st.index, force_rebuild with
    | some idx, false =>
      (.ok { success := true, documents_processed := idx.vectors.length,
             index_stats := RAGSystem.get_index_stats st }, st, disk)
    | _, _ =>
      let dm := SchemeDocumentProcessor.create_documents rows
      if dm.1 = [] then (.httpError 400, st, disk)
      else
        let r := RAGSystem.build_index embed normalize st disk dm.1 dm.2
        if r.1 then
          (.ok { success := true, documents_processed := dm.1.length,
                 index_stats := RAGSystem.get_index_stats r.2.1 }, r.2.1, r.2.2)
        else (.httpError 500, r.2.1, r.2.2)


/-! ## Reachable states of the two services -/

/-- Number of vectors (ntotal) held by an optional index. -/
def vecCountOpt {α : Type} : Option (FaissIndex α) → Nat
  | none => 0
  | some idx => idx.vectors.length

/-- A fresh RAGSystem as left by the constructor: no index, empty stores. -/
def RAGSystem.initial (α : Type) (em : String) (d : Nat) : RAGSystem α :=
  { embedding_model := em, dimension := d, index := none, metadata := [], documents := [] }

/-- An index directory with no artifacts. -/
def RAGDisk.empty (α : Type) : RAGDisk α :=
  { indexFile := none, metadataFile := none, documentsFile := none, configFile := none }

/-- The (memory, disk) states of a RAGSystem reachable from a fresh system
and an empty index directory through its public mutating operations
build_index, save_index and load_index (each build may use any embedding
provider and any normalization). -/
inductive RagReach (α : Type) : RAGSystem α × RAGDisk α → Prop where
  | init (em : String) (d : Nat) : RagReach α (RAGSystem.initial α em d, RAGDisk.empty α)
  | build {p : RAGSystem α × RAGDisk α} (h : RagReach α p) (embed : String → α)
      (normalize : α → α) (docs : List String) (meta : List Metadata) :
      RagReach α (RAGSystem.build_index embed normalize p.1 p.2 docs meta).2
  | save {p : RAGSystem α × RAGDisk α} (h : RagReach α p) :
      RagReach α (p.1, (RAGSystem.save_index p.1 p.2).2)
  | load {p : RAGSystem α × RAGDisk α} (h : RagReach α p) :
      RagReach α ((RAGSystem.load_index p.1 p.2).2, p.2)

/-- A fresh FAISSHandler as left by the constructor. -/
def FAISSHandler.initial (α : Type) : FAISSHandler α :=
  { index := none, metadata := [], dimension := none }

/-- An index directory with no artifacts. -/
def FDisk.empty (α : Type) : FDisk α :=
  { indexFile := none, metadataFile := none, dimensionFile := none }

/-- The handler state after a call to add_embeddings: the raised ValueError
of an uninitialized index leaves the state unchanged. -/
def FAISSHandler.addState {α : Type} (normalize : α → α) (h : FAISSHandler α)
    (embeddings : List α) (texts : List String) : FAISSHandler α :=
  match FAISSHandler.add_embeddings normalize h embeddings texts with
  | .ok h' => h'
  | .error _ => h

/-- The (memory, disk) states of a FAISSHandler reachable from a fresh
handler and an empty index directory through create_index, add_embeddings,
save_index and load_index, where every add_embeddings call supplies equally
many embeddings and texts (the lockstep calling convention of the in-repo
caller; add_embeddings itself never checks it). -/
inductive FReach (α : Type) : FAISSHandler α × FDisk α → Prop where
  | init : FReach α (FAISSHandler.initial α, FDisk.empty α)
  | create {p : FAISSHandler α × FDisk α} (h : FReach α p) (d : Nat) :
      FReach α (FAISSHandler.create_index p.1 d, p.2)
  | add {p : FAISSHandler α × FDisk α} (h : FReach α p) (normalize : α → α)
      (embeddings : List α) (texts : List String)
      (hlen : embeddings.length = texts.length) :
      FReach α (FAISSHandler.addState normalize p.1 embeddings texts, p.2)
  | save {p : FAISSHandler α × FDisk α} (h : FReach α p) :
      FReach α (p.1, FAISSHandler.save_index p.1 p.2)
  | load {p : FAISSHandler α × FDisk α} (h : FReach α p) :
      FReach α ((FAISSHandler.load_index p.1 p.2).2, p.2)

/-- The lockstep invariant of a RAGSystem state. -/
def ragInv {α : Type} (st : RAGSystem α) : Prop :=
  vecCountOpt st.index = st.documents.length ∧ vecCountOpt st.index = st.metadata.length

/-- Consistency of whatever bundle is on a RAGSystem index directory. -/
def ragDiskInv {α : Type} (d : RAGDisk α) : Prop :=
  ∀ idx meta docs, d.indexFile = some idx → d.metadataFile = some meta →
    d.documentsFile = some docs →
    idx.vectors.length = docs.length ∧ idx.vectors.length = meta.length

/-- The lockstep invariant of a FAISSHandler state (vector count of the
index versus length of the parallel text store). -/
def fhInv {α : Type} (h : FAISSHandler α) : Prop :=
  FAISSHandler.get_index_size h = h.metadata.length

/-- Consistency of whatever bundle is on a FAISSHandler index directory. -/
def fDiskInv {α : Type} (d : FDisk α) : Prop :=
  ∀ idx meta, d.indexFile = some idx → d.metadataFile = some meta →
    idx.vectors.length = meta.length

/-! ## Helper lemmas -/

theorem create_embeddingsGo_length {α : Type} (embed : String → α) :
    ∀ (fuel : Nat) (texts : List String), texts.length ≤ fuel →
      (RAGSystem.create_embeddingsGo embed fuel texts).length = texts.length := by
  intro fuel
  induction fuel with
  | zero =>
    intro texts h
    have : texts = [] := List.eq_nil_of_length_eq_zero (Nat.le_zero.mp h)
    subst this
    simp [RAGSystem.create_embeddingsGo]
  | succ n ih =>
    intro texts h
    cases texts with
    | nil => simp [RAGSystem.create_embeddingsGo]
    | cons t ts =>
      simp only [List.length_cons] at h
      have hlen : ((t :: ts).drop 50).length ≤ n := by
        simp only [List.length_drop, List.length_cons]
        omega
      simp only [RAGSystem.create_embeddingsGo, List.length_append, List.length_map,
        List.length_take, ih _ hlen, List.length_drop, List.length_cons]
      omega

/-- The batched embedding loop produces one vector per input text. -/
theorem create_embeddings_length {α : Type} (embed : String → α) (texts : List String) :
    (RAGSystem.create_embeddings embed texts).length = texts.length :=
  create_embeddingsGo_length embed texts.length texts le_rfl

theorem load_preserves {α : Type} (st : RAGSystem α) (disk : RAGDisk α)
    (h : ragInv st) (hd : ragDiskInv disk) :
    ragInv (RAGSystem.load_index st disk).2 := by
  obtain ⟨fi, fm, fd, fc⟩ := disk
  cases fi with
  | none => simpa [RAGSystem.load_index] using h
  | some idx =>
    cases fm with
    | none => simpa [RAGSystem.load_index] using h
    | some m =>
      cases fd with
      | none => simpa [RAGSystem.load_index] using h
      | some ds =>
        cases fc with
        | none => simpa [RAGSystem.load_index] using h
        | some cfg =>
          have hc := hd idx m ds rfl rfl rfl
          simp only [RAGSystem.load_index, ragInv, vecCountOpt]
          exact ⟨hc.1, hc.2⟩

theorem save_preserves {α : Type} (st : RAGSystem α) (disk : RAGDisk α)
    (h : ragInv st) (hd : ragDiskInv disk) :
    ragDiskInv (RAGSystem.save_index st disk).2 := by
  cases hidx : st.index with
  | none => simpa [RAGSystem.save_index, hidx] using hd
  | some idx =>
    intro i m ds e1 e2 e3
    simp only [RAGSystem.save_index, hidx] at e1 e2 e3
    obtain ⟨h1, h2⟩ := h
    simp only [vecCountOpt, hidx] at h1 h2
    cases e1
    cases e2
    cases e3
    exact ⟨h1.symm ▸ rfl, h2.symm ▸ rfl⟩

theorem build_preserves {α : Type} (embed : String → α) (normalize : α → α)
    (st : RAGSystem α) (disk : RAGDisk α) (docs : List String) (meta : List Metadata)
    (h : ragInv st) (hd : ragDiskInv disk) :
    ragInv (RAGSystem.build_index embed normalize st disk docs meta).2.1 ∧
    ragDiskInv (RAGSystem.build_index embed normalize st disk docs meta).2.2 := by
  unfold RAGSystem.build_index
  split
  · exact ⟨h, hd⟩
  · split
    · exact ⟨h, hd⟩
    · next h1 h2 =>
      have he : docs.length = meta.length := not_ne_iff.mp h2
      constructor
      · constructor
        · simp [ragInv, vecCountOpt, RAGSystem.create_faiss_index, create_embeddings_length]
        · simp [ragInv, vecCountOpt, RAGSystem.create_faiss_index,
            create_embeddings_length, he]
      · intro i m ds e1 e2 e3
        simp only [RAGSystem.save_index] at e1 e2 e3
        cases e1
        cases e2
        cases e3
        simp [RAGSystem.create_faiss_index, create_embeddings_length, he]

theorem ragReach_inv {α : Type} :
    ∀ p : RAGSystem α × RAGDisk α, RagReach α p → ragInv p.1 ∧ ragDiskInv p.2 := by
  intro p h
  induction h with
  | init em d =>
    refine ⟨⟨rfl, rfl⟩, ?_⟩
    intro idx m ds e1 _ _
    simp [RAGDisk.empty] at e1
  | build h embed normalize docs meta ih =>
    exact build_preserves embed normalize _ _ docs meta ih.1 ih.2
  | save h ih => exact ⟨ih.1, save_preserves _ _ ih.1 ih.2⟩
  | load h ih => exact ⟨load_preserves _ _ ih.1 ih.2, ih.2⟩

theorem fh_add_preserves {α : Type} (normalize : α → α) (h : FAISSHandler α)
    (embs : List α) (texts : List String) (hlen : embs.length = texts.length)
    (hi : fhInv h) : fhInv (FAISSHandler.addState normalize h embs texts) := by
  cases hidx : h.index with
  | none =>
    simpa [FAISSHandler.addState, FAISSHandler.add_embeddings, hidx] using hi
  | some idx =>
    simp only [fhInv, FAISSHandler.get_index_size, hidx] at hi
    simp only [fhInv, FAISSHandler.addState, FAISSHandler.add_embeddings, hidx,
      FAISSHandler.get_index_size, List.length_append, List.length_map]
    omega

theorem fh_save_preserves {α : Type} (h : FAISSHandler α) (disk : FDisk α)
    (hi : fhInv h) (hd : fDiskInv disk) :
    fDiskInv (FAISSHandler.save_index h disk) := by
  cases hidx : h.index with
  | none => simpa [FAISSHandler.save_index, hidx] using hd
  | some idx =>
    intro i m e1 e2
    simp only [FAISSHandler.save_index, hidx] at e1 e2
    cases e1
    cases e2
    simpa [fhInv, FAISSHandler.get_index_size, hidx] using hi

theorem fh_load_preserves {α : Type} (h : FAISSHandler α) (disk : FDisk α)
    (hi : fhInv h) (hd : fDiskInv disk) :
    fhInv (FAISSHandler.load_index h disk).2 := by
  obtain ⟨fi, fm, fdim⟩ := disk
  cases fi with
  | none => simpa [FAISSHandler.load_index] using hi
  | some idx =>
    cases fm with
    | none => simpa [FAISSHandler.load_index] using hi
    | some m =>
      cases fdim with
      | none => simpa [FAISSHandler.load_index] using hi
      | some dimStr =>
        have hc := hd idx m rfl rfl
        cases hp : parseNatStr (pyStrip dimStr) with
        | none => simpa [FAISSHandler.load_index, hp] using hi
        | some d =>
          simpa [fhInv, FAISSHandler.load_index, hp, FAISSHandler.get_index_size] using hc

theorem fReach_inv {α : Type} :
    ∀ p : FAISSHandler α × FDisk α, FReach α p → fhInv p.1 ∧ fDiskInv p.2 := by
  intro p h
  induction h with
  | init =>
    refine ⟨rfl, ?_⟩
    intro idx m e1 _
    simp [FDisk.empty] at e1
  | create h d ih =>
    exact ⟨by simp [fhInv, FAISSHandler.create_index, FAISSHandler.get_index_size], ih.2⟩
  | add h normalize embeddings texts hlen ih =>
    exact ⟨fh_add_preserves normalize _ embeddings texts hlen ih.1, ih.2⟩
  | save h ih => exact ⟨ih.1, fh_save_preserves _ _ ih.1 ih.2⟩
  | load h ih => exact ⟨fh_load_preserves _ _ ih.1 ih.2, ih.2⟩

theorem zip_replicate_self {γ δ : Type} (s : δ) :
    ∀ l : List γ, l.zip (List.replicate l.length s) = l.map (fun c => (c, s)) := by
  intro l
  induction l with
  | nil => rfl
  | cons x xs ih => simp [List.replicate_succ, ih]

namespace CSVProcessor

theorem processSchemeGo_len (maxTokens : Nat) :
    ∀ (i : Nat) (rows : List CRow),
      (processSchemeGo maxTokens i rows).1.length =
        (processSchemeGo maxTokens i rows).2.length := by
  intro i rows
  induction rows generalizing i with
  | nil => rfl
  | cons r rs ih =>
    simp only [processSchemeGo]
    split
    · exact ih (i + 1)
    · simp [List.length_append, List.length_replicate, ih (i + 1)]

theorem processGenericGo_len (maxTokens : Nat) :
    ∀ (i : Nat) (rows : List PCell),
      (processGenericGo maxTokens i rows).1.length =
        (processGenericGo maxTokens i rows).2.length := by
  intro i rows
  induction rows generalizing i with
  | nil => rfl
  | cons c cs ih =>
    simp only [processGenericGo]
    split
    · exact ih (i + 1)
    · simp [List.length_append, List.length_replicate, ih (i + 1)]

theorem processSchemeGo_zip (maxTokens : Nat) :
    ∀ (i : Nat) (rows : List CRow),
      (processSchemeGo maxTokens i rows).1.zip (processSchemeGo maxTokens i rows).2 =
        ((List.range' i rows.length).zip rows).flatMap (fun p =>
          if pyStrip (combine_scheme_columns p.2) = "" then []
          else (chunk_text maxTokens (combine_scheme_columns p.2)).map
            (fun c => (c, schemeSource p.1 p.2))) := by
  intro i rows
  induction rows generalizing i with
  | nil => rfl
  | cons r rs ih =>
    simp only [List.length_cons]
    have hr : List.range' i (rs.length + 1) = i :: List.range' (i + 1) rs.length := rfl
    rw [hr]
    simp only [List.zip_cons_cons, List.flatMap_cons]
    by_cases hc : pyStrip (combine_scheme_columns r) = ""
    · simp only [processSchemeGo, hc, if_pos, if_true, ite_true]
      simpa using ih (i + 1)
    · simp only [processSchemeGo, hc, ite_false, if_neg, if_false]
      rw [List.zip_append (by simp)]
      rw [zip_replicate_self]
      rw [ih (i + 1)]
  
theorem processGenericGo_zip (maxTokens : Nat) :
    ∀ (i : Nat) (rows : List PCell),
      (processGenericGo maxTokens i rows).1.zip (processGenericGo maxTokens i rows).2 =
        ((List.range' i rows.length).zip rows).flatMap (fun p =>
          if pyStrip (pyStrCell p.2) = "" then []
          else (chunk_text maxTokens (pyStrCell p.2)).map
            (fun c => (c, genericSource p.1))) := by
  intro i rows
  induction rows generalizing i with
  | nil => rfl
  | cons c cs ih =>
    simp only [List.length_cons]
    have hr : List.range' i (cs.length + 1) = i :: List.range' (i + 1) cs.length := rfl
    rw [hr]
    simp only [List.zip_cons_cons, List.flatMap_cons]
    by_cases hc : pyStrip (pyStrCell c) = ""
    · simp only [processGenericGo, hc, ite_true]
      simpa using ih (i + 1)
    · simp only [processGenericGo, hc, ite_false]
      rw [List.zip_append (by simp)]
      rw [zip_replicate_self]
      rw [ih (i + 1)]

end CSVProcessor

theorem createDocsGo_row_index :
    ∀ (i : Nat) (rows : List SRow),
      List.Sublist
        ((SchemeDocumentProcessor.createDocsGo i rows).2.map Metadata.row_index)
        (List.range' i rows.length) := by
  intro i rows
  induction rows generalizing i with
  | nil => simp [SchemeDocumentProcessor.createDocsGo]
  | cons r rs ih =>
    simp only [List.length_cons]
    have hr : List.range' i (rs.length + 1) = i :: List.range' (i + 1) rs.length := rfl
    rw [hr]
    simp only [SchemeDocumentProcessor.createDocsGo]
    split
    · simp only [List.map_cons]
      exact List.Sublist.cons₂ _ (ih (i + 1))
    · exact List.Sublist.cons _ (ih (i + 1))

/-! ## Concrete sample states for the closed instances -/

/-- A sample metadata record. -/
def sampleMeta (i : Nat) (name : String) : Metadata :=
  { scheme_name := some name, sector := none, state := none, eligibility := none,
    benefits := none, official_url := none, level := none, tags := none, row_index := i }

/-- A one-vector index over the trivial vector type. -/
def sampleIdx1 : FaissIndex Unit := { dimension := 1, vectors := [()] }

/-- A two-vector index over the trivial vector type. -/
def sampleIdx2 : FaissIndex Unit := { dimension := 1, vectors := [(), ()] }

/-- A consistent one-entry system state. -/
def sampleSt1 : RAGSystem Unit :=
  { embedding_model := "m", dimension := 1, index := some sampleIdx1,
    metadata := [sampleMeta 0 "A"], documents := ["d0"] }

/-- A consistent two-entry system state. -/
def sampleSt2 : RAGSystem Unit :=
  { embedding_model := "m", dimension := 1, index := some sampleIdx2,
    metadata := [sampleMeta 0 "A", sampleMeta 1 "B"], documents := ["d1", "d2"] }

/-- The complete bundle persisted from the one-entry state. -/
def sampleBundle1 : RAGDisk Unit := (RAGSystem.save_index sampleSt1 (RAGDisk.empty Unit)).2

/-- A consistent three-entry system state. -/
def sampleSt3 : RAGSystem Unit :=
  { embedding_model := "m", dimension := 1,
    index := some { dimension := 1, vectors := [(), (), ()] },
    metadata := [sampleMeta 0 "A", sampleMeta 1 "B", sampleMeta 2 "C"],
    documents := ["da", "db", "dc"] }

/-! ## The claims -/

/-- C1, counterexample: a single public add_embeddings call with one
embedding and two texts, on a freshly created index, leaves the index with
one vector but the parallel text store with two entries, so the lockstep
invariant of the claim fails on a state reachable through the public
operations (add_embeddings validates no lengths). -/
theorem C1_counterexample_add_mismatch :
    FAISSHandler.get_index_size
        (FAISSHandler.addState (α := Unit) (fun v => v)
          (FAISSHandler.create_index (FAISSHandler.initial Unit) 2) [()] ["a", "b"]) = 1 ∧
    (FAISSHandler.addState (α := Unit) (fun v => v)
        (FAISSHandler.create_index (FAISSHandler.initial Unit) 2) [()] ["a", "b"]).metadata.length
      = 2 := by
  exact ⟨by decide, by decide⟩

/-- C1, amended: in every state reachable through the public operations the
parallel stores are in lockstep, provided every add_embeddings call
supplies equally many embeddings and texts (the calling convention of the
in-repo caller; add_embeddings itself does not check it).  For RAGSystem
(build/save/load, which enforce their length precondition) the invariant
is unconditional. -/
theorem C1_lockstep_invariant :
    (∀ (α : Type) (p : RAGSystem α × RAGDisk α), RagReach α p →
      vecCountOpt p.1.index = p.1.documents.length ∧
      vecCountOpt p.1.index = p.1.metadata.length) ∧
    (∀ (α : Type) (q : FAISSHandler α × FDisk α), FReach α q →
      FAISSHandler.get_index_size q.1 = q.1.metadata.length) := by
  constructor
  · intro α p h
    exact (ragReach_inv p h).1
  · intro α q h
    exact (fReach_inv q h).1

/-- C1, witness: the invariant evaluated on a state reached by one build. -/
theorem C1_lockstep_invariant_witness :
    vecCountOpt ((RAGSystem.build_index (fun _ => ()) (fun v => v)
        (RAGSystem.initial Unit "m" 1) (RAGDisk.empty Unit) ["doc"]
        [sampleMeta 0 "A"]).2.1).index =
      ((RAGSystem.build_index (fun _ => ()) (fun v => v)
        (RAGSystem.initial Unit "m" 1) (RAGDisk.empty Unit) ["doc"]
        [sampleMeta 0 "A"]).2.1).documents.length ∧
    FAISSHandler.get_index_size
        (FAISSHandler.addState (fun v => v) (FAISSHandler.create_index
          (FAISSHandler.initial Unit) 1) [()] ["a"]) =
      (FAISSHandler.addState (fun v => v) (FAISSHandler.create_index
          (FAISSHandler.initial Unit) 1) [()] ["a"]).metadata.length :=
  ⟨(C1_lockstep_invariant.1 Unit _
      (RagReach.build (RagReach.init "m" 1) (fun _ => ()) (fun v => v) ["doc"]
        [sampleMeta 0 "A"])).1,
   C1_lockstep_invariant.2 Unit _
      (FReach.add (FReach.create FReach.init 1) (fun v => v) [()] ["a"] rfl)⟩

set_option maxRecDepth 20000 in
/-- C2: evaluated at the failing input, FAISSHandler.search against a
3-entry index with k = 100 returns 100 results, not min(k, total) = 3: the
unclamped k makes FAISS pad 97 slots with position -1, and the guard
(idx < len(metadata)) admits -1, which Python resolves to the last stored
entry.  RAGSystem.search on the same data does clamp and returns exactly 3,
showing the intended behaviour. -/
theorem C2_search_count_at_failing_input :
    (FAISSHandler.search (α := Unit)
      { index := some { dimension := 1, vectors := [(), (), ()] },
        metadata := ["a", "b", "c"], dimension := some 1 }
      (fun _ => 0) 100).toOption.map List.length = some 100 ∧
    (RAGSystem.search sampleSt3 (fun _ => 0) 100).toOption.map List.length = some 3 := by
  exact ⟨by decide, by decide⟩

/-- C3: evaluated at the failing inputs.  (1) The index returns position -1
for the padded slots of an over-requesting search.  (2) FAISSHandler.search
keeps such a slot, resolving it to the last stored text through Python
negative indexing, instead of dropping it.  (3) On a created-but-empty
index the same path crashes with IndexError (metadata[-1] on an empty
list).  (4) Only the uninitialized handler reports a ValueError, and (5)
RAGSystem.search reports a search failure when no index is loaded. -/
theorem C3_search_positions_at_failing_input :
    (FaissIndex.search (α := Unit) { dimension := 1, vectors := [()] }
        (fun _ => 0) 3).map Prod.snd = [0, -1, -1] ∧
    (FAISSHandler.search (α := Unit)
      { index := some { dimension := 1, vectors := [()] },
        metadata := ["a"], dimension := some 1 }
      (fun _ => 0) 2).toOption = some [(some 0, "a"), (none, "a")] ∧
    exceptErr (FAISSHandler.search (α := Unit)
      (FAISSHandler.create_index (FAISSHandler.initial Unit) 2) (fun _ => 0) 5) =
      some PyErr.indexError ∧
    exceptErr (FAISSHandler.search (FAISSHandler.initial Unit) (fun _ => 0) 5) =
      some (PyErr.valueError "Index not initialized.") ∧
    exceptErr (RAGSystem.search (RAGSystem.initial Unit "m" 1) (fun _ => 0) 5) =
      some "Search failed: Index not loaded. Please load or build an index first." := by
  refine ⟨by decide, by decide, by decide, by decide, by decide⟩

/-- C4: saving the bundle from any state with a built index and loading it
back (into any prior in-memory state) succeeds and recovers the index, its
vector count, the documents, the metadata and the (embedding_model,
dimension) config exactly as stored. -/
theorem C4_save_load_roundtrip {α : Type} (st st' : RAGSystem α) (disk : RAGDisk α)
    (idx : FaissIndex α) (h : st.index = some idx) :
    (RAGSystem.load_index st' (RAGSystem.save_index st disk).2).1 = true ∧
    (RAGSystem.load_index st' (RAGSystem.save_index st disk).2).2.index = st.index ∧
    vecCountOpt (RAGSystem.load_index st' (RAGSystem.save_index st disk).2).2.index =
      vecCountOpt st.index ∧
    (RAGSystem.load_index st' (RAGSystem.save_index st disk).2).2.documents = st.documents ∧
    (RAGSystem.load_index st' (RAGSystem.save_index st disk).2).2.metadata = st.metadata ∧
    (RAGSystem.load_index st' (RAGSystem.save_index st disk).2).2.embedding_model =
      st.embedding_model ∧
    (RAGSystem.load_index st' (RAGSystem.save_index st disk).2).2.dimension =
      st.dimension := by
  simp [RAGSystem.save_index, RAGSystem.load_index, h]

/-- C4, witness: the round trip evaluated from a concrete one-entry state. -/
theorem C4_save_load_roundtrip_witness :
    (RAGSystem.load_index (RAGSystem.initial Unit "x" 7)
        (RAGSystem.save_index sampleSt1 (RAGDisk.empty Unit)).2).1 = true ∧
    (RAGSystem.load_index (RAGSystem.initial Unit "x" 7)
        (RAGSystem.save_index sampleSt1 (RAGDisk.empty Unit)).2).2.documents =
      sampleSt1.documents :=
  ⟨(C4_save_load_roundtrip sampleSt1 (RAGSystem.initial Unit "x" 7)
      (RAGDisk.empty Unit) sampleIdx1 rfl).1,
   (C4_save_load_roundtrip sampleSt1 (RAGSystem.initial Unit "x" 7)
      (RAGDisk.empty Unit) sampleIdx1 rfl).2.2.2.1⟩

/-- C5: whenever any persisted artifact is absent (any of the four for
RAGSystem, any of the three for FAISSHandler), load reports failure with
the value False and the in-memory state is returned unchanged. -/
theorem C5_load_fails_closed :
    (∀ (α : Type) (st : RAGSystem α) (disk : RAGDisk α),
      disk.indexFile = none ∨ disk.metadataFile = none ∨ disk.documentsFile = none ∨
        disk.configFile = none →
      RAGSystem.load_index st disk = (false, st)) ∧
    (∀ (α : Type) (h : FAISSHandler α) (disk : FDisk α),
      disk.indexFile = none ∨ disk.metadataFile = none ∨ disk.dimensionFile = none →
      FAISSHandler.load_index h disk = (false, h)) := by
  constructor
  · intro α st disk hmiss
    obtain ⟨fi, fm, fd, fc⟩ := disk
    cases fi <;> cases fm <;> cases fd <;> cases fc <;>
      simp_all [RAGSystem.load_index]
  · intro α h disk hmiss
    obtain ⟨fi, fm, fdim⟩ := disk
    cases fi <;> cases fm <;> cases fdim <;>
      simp_all [FAISSHandler.load_index]

/-- C5, witness: deleting just the vector index artifact from a complete
bundle makes load report failure and leave the state unchanged. -/
theorem C5_load_fails_closed_witness :
    RAGSystem.load_index (RAGSystem.initial Unit "m" 1)
        { sampleBundle1 with indexFile := none } =
      (false, RAGSystem.initial Unit "m" 1) :=
  C5_load_fails_closed.1 Unit (RAGSystem.initial Unit "m" 1)
    { sampleBundle1 with indexFile := none } (Or.inl rfl)

/-- C6, counterexample: from the complete persisted bundle of the one-entry
state, a save of the two-entry state interrupted after its first write
(index.faiss) leaves a disk that is neither the untouched prior bundle nor
the fully written new bundle: the prior bundle has been partially
overwritten. -/
theorem C6_counterexample_interrupted_save :
    RAGSystem.save_index_steps sampleSt2 sampleBundle1 1 ≠ sampleBundle1 ∧
    RAGSystem.save_index_steps sampleSt2 sampleBundle1 1 ≠
      (RAGSystem.save_index sampleSt2 sampleBundle1).2 ∧
    (RAGSystem.save_index_steps sampleSt2 sampleBundle1 1).indexFile =
      some sampleIdx2 ∧
    (RAGSystem.save_index_steps sampleSt2 sampleBundle1 1).documentsFile =
      some ["d0"] := by
  exact ⟨by decide, by decide, by decide, by decide⟩

/-- C6, amended: save_index writes the four artifacts in place and in
program order (index, metadata, documents, config) with no staging: a save
interrupted after j writes leaves exactly the first j artifacts replaced
and the remaining artifacts of the prior bundle in place, so only a save
that completes all four writes replaces the bundle wholesale, and an
interruption can partially overwrite the prior complete bundle. -/
theorem C6_save_writes_in_place_sequentially {α : Type} (st : RAGSystem α)
    (disk : RAGDisk α) (idx : FaissIndex α) (steps : Nat) (h : st.index = some idx) :
    RAGSystem.save_index_steps st disk steps =
      { indexFile := if 1 ≤ steps then some idx else disk.indexFile,
        metadataFile := if 2 ≤ steps then some st.metadata else disk.metadataFile,
        documentsFile := if 3 ≤ steps then some st.documents else disk.documentsFile,
        configFile := if 4 ≤ steps then
            some { embedding_model := st.embedding_model, dimension := st.dimension }
          else disk.configFile } ∧
    (4 ≤ steps → RAGSystem.save_index_steps st disk steps = (RAGSystem.save_index st disk).2) ∧
    RAGSystem.save_index_steps st disk 0 = disk := by
  refine ⟨?_, ?_, ?_⟩
  · simp only [RAGSystem.save_index_steps, h]
    by_cases h1 : 1 ≤ steps <;> by_cases h2 : 2 ≤ steps <;> by_cases h3 : 3 ≤ steps <;>
      by_cases h4 : 4 ≤ steps <;>
      simp [h1, h2, h3, h4]
  · intro h4
    have h1 : 1 ≤ steps := by omega
    have h2 : 2 ≤ steps := by omega
    have h3 : 3 ≤ steps := by omega
    simp [RAGSystem.save_index_steps, RAGSystem.save_index, h, h1, h2, h3, h4]
  · simp [RAGSystem.save_index_steps, h]

/-- C6, witness: the characterization evaluated at the concrete interrupted
save of the counterexample. -/
theorem C6_save_writes_in_place_sequentially_witness :
    RAGSystem.save_index_steps sampleSt2 sampleBundle1 1 =
      { indexFile := if 1 ≤ 1 then some sampleIdx2 else sampleBundle1.indexFile,
        metadataFile := if 2 ≤ 1 then some sampleSt2.metadata else sampleBundle1.metadataFile,
        documentsFile := if 3 ≤ 1 then some sampleSt2.documents
          else sampleBundle1.documentsFile,
        configFile := if 4 ≤ 1 then
            some { embedding_model := sampleSt2.embedding_model,
                   dimension := sampleSt2.dimension }
          else sampleBundle1.configFile } :=
  (C6_save_writes_in_place_sequentially sampleSt2 sampleBundle1 sampleIdx2 1 rfl).1

/-- C7: the document normalizer is deterministic: two runs on the same
input rows give identical document and metadata lists (it is a pure
function of the rows, with no other inputs), and row order is preserved:
the row_index fields of the produced metadata form a subsequence of the
input row positions in ascending order.  The same determinism holds for
the chunking normalizer process_csv. -/
theorem C7_normalizer_deterministic :
    ∀ (rows : List SRow) (maxTokens : Nat) (df : CSVProcessor.CsvData),
      SchemeDocumentProcessor.create_documents rows =
        SchemeDocumentProcessor.create_documents rows ∧
      CSVProcessor.process_csv maxTokens df = CSVProcessor.process_csv maxTokens df ∧
      List.Sublist
        ((SchemeDocumentProcessor.create_documents rows).2.map Metadata.row_index)
        (List.range rows.length) := by
  intro rows maxTokens df
  refine ⟨rfl, rfl, ?_⟩
  rw [List.range_eq_range']
  exact createDocsGo_row_index 0 rows

/-- C8: evaluated at the failing input, chunk_text with a token budget of 1
(max_tokens is the constructor parameter of CSVProcessor; the same shape
scales to the default 500 with a 2100-character second sentence) returns
the chunk "cdefghij" whose estimated token count 2 exceeds the budget: a
sentence that does not fit is installed as the new current_chunk after a
flush and later emitted unsplit, bypassing the word-split and truncation
fallbacks. -/
theorem C8_chunk_exceeds_budget :
    CSVProcessor.chunk_text 1 "ab. cdefghij" = ["ab", "cdefghij"] ∧
    CSVProcessor.estimate_tokens "cdefghij" = 2 ∧
    ¬ (CSVProcessor.estimate_tokens "cdefghij" ≤ 1) := by
  exact ⟨by decide, by decide, by decide⟩

/-- C9: when an index already exists and force_rebuild is false, the ingest
endpoint leaves both the in-memory state and the disk unchanged and reports
the current vector count and the current index statistics. -/
theorem C9_ingest_noop {α : Type} (embed : String → α) (normalize : α → α)
    (rows : List SRow) (st : RAGSystem α) (disk : RAGDisk α) (idx : FaissIndex α)
    (h : st.index = some idx) :
    ingest_csv embed normalize true rows false st disk =
      (IngestOutcome.ok
        { success := true, documents_processed := idx.vectors.length,
          index_stats := RAGSystem.get_index_stats st }, st, disk) := by
  simp [ingest_csv, h]

/-- C9, witness: the no-op evaluated at a concrete built state. -/
theorem C9_ingest_noop_witness :
    ingest_csv (fun _ => ()) (fun v => v) true [] false sampleSt1 (RAGDisk.empty Unit) =
      (IngestOutcome.ok
        { success := true, documents_processed := 1,
          index_stats := RAGSystem.get_index_stats sampleSt1 },
       sampleSt1, RAGDisk.empty Unit) :=
  C9_ingest_noop (fun _ => ()) (fun v => v) [] sampleSt1 (RAGDisk.empty Unit) sampleIdx1 rfl

/-- C10: for every CSV input accepted by process_csv, the chunk list and
the source list have equal length, and zipping them shows every chunk of a
given input row paired with exactly that row's source identifier, row by
row. -/
theorem C10_chunks_sources_aligned :
    ∀ (maxTokens : Nat) (df : CSVProcessor.CsvData),
      (CSVProcessor.process_csv maxTokens df).1.length =
        (CSVProcessor.process_csv maxTokens df).2.length ∧
      (CSVProcessor.process_csv maxTokens df).1.zip
          (CSVProcessor.process_csv maxTokens df).2 =
        (match df with
         | .scheme rows =>
           ((List.range rows.length).zip rows).flatMap (fun p =>
             if pyStrip (CSVProcessor.combine_scheme_columns p.2) = "" then []
             else (CSVProcessor.chunk_text maxTokens
                 (CSVProcessor.combine_scheme_columns p.2)).map
               (fun c => (c, CSVProcessor.schemeSource p.1 p.2)))
         | .generic rows =>
           ((List.range rows.length).zip rows).flatMap (fun p =>
             if pyStrip (pyStrCell p.2) = "" then []
             else (CSVProcessor.chunk_text maxTokens (pyStrCell p.2)).map
               (fun c => (c, CSVProcessor.genericSource p.1)))) := by
  intro maxTokens df
  cases df with
  | scheme rows =>
    refine ⟨CSVProcessor.processSchemeGo_len maxTokens 0 rows, ?_⟩
    dsimp only
    rw [List.range_eq_range']
    exact CSVProcessor.processSchemeGo_zip maxTokens 0 rows
  | generic rows =>
    refine ⟨CSVProcessor.processGenericGo_len maxTokens 0 rows, ?_⟩
    dsimp only
    rw [List.range_eq_range']
    exact CSVProcessor.processGenericGo_zip maxTokens 0 rows
